import Mathlib

/-!
# Verification of the minigo `dual_net` training/inference core

Shallow embedding of `py/dual_net.py`: the hyperparameter resolver, the
training-objective costs, the training loop, weight initialization, the
statistics collector, the inference-time symmetry handling, and the
bootstrap procedure.  Python floats are modelled as exact rationals where
the code is plain arithmetic, and as real numbers where the code uses
`math.log`.  Fallible operations (Python exceptions) are modelled with
`Except`/`Option`.
-/

namespace DualNet

/-! ## String helpers: Python's `'bias' in v.name` substring test -/

/-- `charsStartWith s p`: the character list `p` occurs at the start of `s`. -/
def charsStartWith : List Char → List Char → Bool
  | _, [] => true
  | [], _ :: _ => false
  | a :: s, b :: p => a == b && charsStartWith s p

/-- `charsContain s p`: the character list `p` occurs contiguously in `s`. -/
def charsContain (s p : List Char) : Bool :=
  match s with
  | [] => charsStartWith [] p
  | _ :: rest => charsStartWith s p || charsContain rest p

/-- Python's `p in s` on strings: `p` is a contiguous substring of `s`. -/
def strContains (s p : String) : Bool :=
  charsContain s.data p.data

/-! ## Training objective (`train_ops`), the L2 regularization term

`train_ops` computes
`l2_cost = 1e-4 * tf.add_n([tf.nn.l2_loss(v) for v in tf.trainable_variables()
                            if not 'bias' in v.name])`.
A trainable variable is modelled by its name and its (flattened) entries. -/

/-- A trainable variable: its name and the flattened tensor entries. -/
structure TrainVar where
  name : String
  value : List ℚ
deriving DecidableEq

/-- `tf.nn.l2_loss(t)`: half the sum of the squared entries, `sum(t ** 2) / 2`. -/
def l2_loss (t : List ℚ) : ℚ :=
  (t.map (fun x => x * x)).sum / 2

/-- The `l2_cost` expression of `train_ops`.  The hyperparameter
`l2_strength` is in scope (it arrives in `**hparams`) but the source
multiplies by the literal `1e-4 = 1/10000`, not by `l2_strength`. -/
def train_ops_l2_cost (l2_strength : ℚ) (trainable_variables : List TrainVar) : ℚ :=
  1 / 10000 *
    ((trainable_variables.filter (fun v => !(strContains v.name "bias"))).map
      (fun v => l2_loss v.value)).sum

/-- The formula the spec states for the L2 term: `l2_strength` times the sum
of the squared norms `‖w‖²` of the non-bias trainable weight tensors. -/
def spec_l2_cost (l2_strength : ℚ) (trainable_variables : List TrainVar) : ℚ :=
  l2_strength *
    ((trainable_variables.filter (fun v => !(strContains v.name "bias"))).map
      (fun v => (v.value.map (fun x => x * x)).sum)).sum

/-! ## StatisticsCollector -/

/-- The per-instance state of `StatisticsCollector`: four accumulator lists,
all starting empty in `__init__`. -/
structure StatisticsCollector where
  policy_costs : List ℚ
  value_costs : List ℚ
  regularization_costs : List ℚ
  combined_costs : List ℚ
deriving DecidableEq

/-- `StatisticsCollector.__init__`: all four lists empty. -/
def SCinit : StatisticsCollector :=
  ⟨[], [], [], []⟩

/-- `StatisticsCollector.report`: append one scalar to each of the four lists. -/
def SCreport (s : StatisticsCollector) (policy_cost value_cost regularization_cost combined_cost : ℚ) :
    StatisticsCollector :=
  { policy_costs := s.policy_costs ++ [policy_cost]
    value_costs := s.value_costs ++ [value_cost]
    regularization_costs := s.regularization_costs ++ [regularization_cost]
    combined_costs := s.combined_costs ++ [combined_cost] }

/-- The summary record `collect` feeds to the four scalar summary nodes. -/
structure Summary where
  policy_error : ℚ
  value_error : ℚ
  reg_error : ℚ
  cost : ℚ
deriving DecidableEq

/-- The arithmetic fault Python raises on `sum(xs) / len(xs)` with `xs` empty. -/
inductive CollectError where
  | divisionByZero
deriving DecidableEq

/-- Python's `sum(xs) / len(xs)`: raises `ZeroDivisionError` when `len(xs) = 0`. -/
def pyAvg (xs : List ℚ) : Except CollectError ℚ :=
  if xs.length = 0 then .error .divisionByZero else .ok (xs.sum / xs.length)

/-- `StatisticsCollector.collect`: averages the four lists (in source order),
resets all four lists to empty, and returns the summary built from the
averages together with the reset state. -/
def SCcollect (s : StatisticsCollector) : Except CollectError (Summary × StatisticsCollector) :=
  match pyAvg s.policy_costs with
  | .error e => .error e
  | .ok avg_pol =>
    match pyAvg s.value_costs with
    | .error e => .error e
    | .ok avg_val =>
      match pyAvg s.regularization_costs with
      | .error e => .error e
      | .ok avg_reg =>
        match pyAvg s.combined_costs with
        | .error e => .error e
        | .ok avg_cost =>
          .ok (⟨avg_pol, avg_val, avg_reg, avg_cost⟩, ⟨[], [], [], []⟩)

/-- One public operation on a `StatisticsCollector` instance. -/
inductive SCstep : StatisticsCollector → StatisticsCollector → Prop
  | report (s : StatisticsCollector) (p v r c : ℚ) : SCstep s (SCreport s p v r c)
  | collect (s : StatisticsCollector) (summ : Summary) (s' : StatisticsCollector) :
      SCcollect s = .ok (summ, s') → SCstep s s'

/-- States reachable from a fresh `StatisticsCollector()` by `report`/`collect`. -/
inductive SCreachable : StatisticsCollector → Prop
  | init : SCreachable SCinit
  | step {s s' : StatisticsCollector} : SCreachable s → SCstep s s' → SCreachable s'

/-! ## The training loop (`DualNetworkTrainer.train`)

`train` runs `for i in tqdm(range(num_steps))`, each iteration pulling one
batch via `sess.run(train_tensors)`; exhaustion of the record stream raises
`tf.errors.OutOfRangeError`, which breaks the loop; `self.save_weights()`
runs after the loop on both the normal and the early exit.  The stream of
`sess.run` results is modelled by a finite list of per-step cost records:
further pulls raise `OutOfRangeError`. -/

/-- `EXAMPLES_PER_GENERATION` module constant. -/
def EXAMPLES_PER_GENERATION : ℕ := 2000000

/-- `TRAIN_BATCH_SIZE` module constant. -/
def TRAIN_BATCH_SIZE : ℕ := 16

/-- The per-step scalars of `tensor_values` that the loop body consumes. -/
structure StepValues where
  policy_cost : ℚ
  value_cost : ℚ
  l2_cost : ℚ
  combined_cost : ℚ
deriving DecidableEq

/-- `DualNetworkTrainer.save_weights`: persist a checkpoint at the save
location (an overwrite when one already exists there). -/
def save_weights (files : List String) (save_file : String) : List String :=
  if save_file ∈ files then files else files ++ [save_file]

/-- The loop body of `train`, iterating `i` over `range(num_steps)` (the
second argument is the number of iterations remaining).  Pulling from an
exhausted source breaks the loop.  With `logdir` set, each step reports its
costs and every 100th step (`i % 100 == 0`) collects a summary; a collect on
empty accumulators would propagate the arithmetic fault, modelled as `none`.
Returns the number of completed steps, the final collector state, and the
summaries logged. -/
def trainLoopGo (logdir : Bool) :
    ℕ → ℕ → StatisticsCollector → List Summary → List StepValues →
    Option (ℕ × StatisticsCollector × List Summary)
  | _, 0, stats, logs, _ => some (0, stats, logs)
  | _, _ + 1, stats, logs, [] => some (0, stats, logs)
  | i, n + 1, stats, logs, tv :: rest =>
    if logdir then
      let stats2 := SCreport stats tv.policy_cost tv.value_cost tv.l2_cost tv.combined_cost
      if i % 100 = 0 then
        match SCcollect stats2 with
        | .error _ => none
        | .ok (summ, stats3) =>
          (trainLoopGo logdir (i + 1) n stats3 (logs ++ [summ]) rest).map
            (fun r => (r.1 + 1, r.2))
      else
        (trainLoopGo logdir (i + 1) n stats2 logs rest).map (fun r => (r.1 + 1, r.2))
    else
      (trainLoopGo logdir (i + 1) n stats logs rest).map (fun r => (r.1 + 1, r.2))

/-- What `DualNetworkTrainer.train` leaves behind. -/
structure TrainOutcome where
  stepsRun : ℕ
  logs : List Summary
  files : List String
deriving DecidableEq

/-- `DualNetworkTrainer.train`: resolve the default `num_steps`, run the
loop from `i = 0` with a fresh `StatisticsCollector`, then `save_weights`. -/
def train (files : List String) (save_file : String) (source : List StepValues)
    (num_steps : Option ℕ) (logdir : Bool) : Option TrainOutcome :=
  let ns := num_steps.getD (EXAMPLES_PER_GENERATION / TRAIN_BATCH_SIZE)
  (trainLoopGo logdir 0 ns SCinit [] source).map (fun r =>
    { stepsRun := r.1, logs := r.2.2, files := save_weights files save_file })

/-! ## Weight initialization (`DualNetworkTrainer.initialize_weights`) -/

/-- What `initialize_weights` ends up doing to the session's variables. -/
inductive InitAction where
  | restoreFrom (path : String)
  | randomInit
deriving DecidableEq

/-- `DualNetworkTrainer.initialize_weights(init_from)`.  `pathExists` is
`os.path.exists`; the checkpoint at the trainer's own save location is
detected through its companion `.meta` file. -/
def initialize_weights (save_file : Option String) (pathExists : String → Bool)
    (init_from : Option String) : InitAction :=
  match save_file with
  | some sf =>
    if pathExists (sf ++ ".meta") then
      InitAction.restoreFrom sf
    else
      match init_from with
      | some f => InitAction.restoreFrom f
      | none => InitAction.randomInit
  | none =>
    match init_from with
    | some f => InitAction.restoreFrom f
    | none => InitAction.randomInit

/-! ## Inference (`DualNetwork.run_many`) and dihedral symmetries

The `symmetries` collaborator module is not part of the excerpt; its two
functions are modelled from the spec.  Feature tensors, policy vectors and
values stay abstract types; the loaded network's forward pass is an abstract
batch function. -/

/-- The eight dihedral symmetries of the Go board. -/
inductive Sym where
  | identity | rot90 | rot180 | rot270
  | flip | flipRot90 | flipRot180 | flipRot270
deriving DecidableEq

/-- The external collaborators a `DualNetwork` instance is wired to:
feature extraction, the session's forward pass, the action of a symmetry on
feature tensors and on policy vectors, the inverse of a symmetry, and the
per-example random symmetry draw (a function of the example index, so the
choices for distinct examples are independent). -/
structure InferenceModel (Pos F P V : Type) where
  extract_features : Pos → F
  forward : List F → List P × List V
  applySymFeat : Sym → F → F
  applySymPi : Sym → P → P
  invSym : Sym → Sym
  draw : ℕ → Sym

/-- Modelled from the spec: `symmetries.randomize_symmetries_feat` (the
`symmetries` module is missing from the excerpt).  Applies one of the eight
dihedral symmetries, chosen independently per example, to each feature
tensor, returning the chosen symmetries and the transformed batch. -/
def randomize_symmetries_feat {Pos F P V : Type} (m : InferenceModel Pos F P V)
    (processed : List F) : List Sym × List F :=
  let syms := (List.range processed.length).map m.draw
  (syms, syms.zipWith m.applySymFeat processed)

/-- Modelled from the spec: `symmetries.invert_symmetries_pi` (the
`symmetries` module is missing from the excerpt).  Applies, per example, the
inverse of the recorded symmetry to the policy vector. -/
def invert_symmetries_pi {Pos F P V : Type} (m : InferenceModel Pos F P V)
    (syms_used : List Sym) (probabilities : List P) : List P :=
  syms_used.zipWith (fun s p => m.applySymPi (m.invSym s) p) probabilities

/-- `DualNetwork.run_many`: extract features, optionally randomize
symmetries, run the forward pass, optionally invert the symmetries on the
policy output only, and return (probabilities, values). -/
def run_many {Pos F P V : Type} (m : InferenceModel Pos F P V)
    (positions : List Pos) (use_random_symmetry : Bool) : List P × List V :=
  let processed := positions.map m.extract_features
  let sp := if use_random_symmetry then randomize_symmetries_feat m processed
            else ([], processed)
  let outputs := m.forward sp.2
  let probabilities := outputs.1
  let value := outputs.2
  let probabilities := if use_random_symmetry then invert_symmetries_pi m sp.1 probabilities
                       else probabilities
  (probabilities, value)

/-! ## `_round_power_of_two` and the hyperparameter resolver

`_round_power_of_two(n) = 2 ** int(round(math.log(n, 2)))`.  The Python
float computation is idealized over the reals. -/

/-- `_round_power_of_two(n)`: `2` raised to the integer nearest to
`log2 n`. -/
noncomputable def round_power_of_two (n : ℝ) : ℝ :=
  2 ^ (round (Real.logb 2 n) : ℤ)

/-- A hyperparameter dict: keys to (idealized float) values. -/
abbrev HDict := List (String × ℝ)

/-- Lookup in a dict: the value at the first occurrence of the key. -/
def dictGet : HDict → String → Option ℝ
  | [], _ => none
  | (k, v) :: rest, key => if k = key then some v else dictGet rest key

/-- `d[key] = val`: replace the value at `key`, or add the binding. -/
def dictSet : HDict → String → ℝ → HDict
  | [], key, val => [(key, val)]
  | (k, v) :: rest, key, val =>
    if k = key then (k, val) :: rest else (k, v) :: dictSet rest key val

/-- Python's `d.update(**overrides)`: set each override key in turn. -/
def dictUpdate (d : HDict) : HDict → HDict
  | [] => d
  | (k, v) :: rest => dictUpdate (dictSet d k v) rest

/-- The board-size-derived default hyperparameters built by
`get_default_hyperparams` before the override update, with
`k = _round_power_of_two(go.N ** 2 / 3)`. -/
noncomputable def default_hparams (N : ℕ) : HDict :=
  [("k", round_power_of_two ((N : ℝ) ^ 2 / 3)),
   ("fc_width", 2 * round_power_of_two ((N : ℝ) ^ 2 / 3)),
   ("num_shared_layers", (N : ℝ)),
   ("l2_strength", 2 / 10000),
   ("momentum", 9 / 10)]

/-- `get_default_hyperparams(**overrides)`: the defaults updated by the
overrides, verbatim and unvalidated. -/
noncomputable def get_default_hyperparams (N : ℕ) (overrides : HDict) : HDict :=
  dictUpdate (default_hparams N) overrides

/-! ## Sessions, graphs and `DualNetworkTrainer.bootstrap`

A TensorFlow world: sessions are allocated in order, each owning its own
graph (whether the net/objective graph has been built in it) and variable
storage (whether `global_variables_initializer` has run), plus the set of
checkpoint locations on disk. -/

/-- One `tf.Session(graph=tf.Graph())`: a fresh graph, no ops built, no
variables initialized. -/
structure SessionState where
  graphBuilt : Bool
  varsInitialized : Bool
deriving DecidableEq

/-- The world: the sessions allocated so far (a session id is an index into
this list) and the checkpoint files on disk. -/
structure TFWorld where
  sessions : List SessionState
  files : List String
deriving DecidableEq

/-- `tf.Session(graph=tf.Graph())`: allocate a fresh session over a fresh
graph, returning its id. -/
def newSession (w : TFWorld) : ℕ × TFWorld :=
  (w.sessions.length, { w with sessions := w.sessions ++ [⟨false, false⟩] })

/-- Apply `f` to the state of session `sid`. -/
def updateSession (w : TFWorld) (sid : ℕ) (f : SessionState → SessionState) : TFWorld :=
  { w with sessions := w.sessions.set sid (f (w.sessions.getD sid ⟨false, false⟩)) }

/-- Building `get_inference_input` / `dual_net` / `train_ops` inside
`with sess.graph.as_default()`: marks the session's graph as built. -/
def buildTrainGraph (w : TFWorld) (sid : ℕ) : TFWorld :=
  updateSession w sid (fun s => { s with graphBuilt := true })

/-- `sess.run(tf.global_variables_initializer())` on session `sid`. -/
def runGlobalVarsInit (w : TFWorld) (sid : ℕ) : TFWorld :=
  updateSession w sid (fun s => { s with varsInitialized := true })

/-- `tf.train.Saver().save(sess, save_file)`: write the checkpoint. -/
def saverSave (w : TFWorld) (save_file : String) : TFWorld :=
  { w with files := save_weights w.files save_file }

/-- `DualNetworkTrainer.__init__`: records the save file and allocates the
trainer's own persistent session (over its own fresh graph). -/
structure Trainer where
  save_file : String
  sess : ℕ
deriving DecidableEq

/-- Construct a `DualNetworkTrainer(save_file)` in world `w`. -/
def mkTrainer (w : TFWorld) (save_file : String) : Trainer × TFWorld :=
  let (sid, w') := newSession w
  (⟨save_file, sid⟩, w')

/-- `DualNetworkTrainer.bootstrap`: allocate a fresh local session, build
the architecture and objective inside its graph, initialize its variables,
and save the checkpoint from it.  The trainer's own `self.sess` is never
touched. -/
def bootstrap (t : Trainer) (w : TFWorld) : TFWorld :=
  let (sid, w1) := newSession w
  let w2 := buildTrainGraph w1 sid
  let w3 := runGlobalVarsInit w2 sid
  saverSave w3 t.save_file

/-- A concrete inference wiring used to evaluate `run_many` on one
position. -/
def demoModel : InferenceModel ℕ ℕ ℕ ℕ where
  extract_features := fun p => p
  forward := fun fs => (fs, fs)
  applySymFeat := fun _ f => f + 1
  applySymPi := fun _ p => p + 2
  invSym := fun s => s
  draw := fun _ => Sym.identity

/-! ## Helper lemmas -/

/-- Lookup after `dictSet`: the set key reads back the new value, every
other key is untouched. -/
theorem dictGet_dictSet (d : HDict) (k key : String) (v : ℝ) :
    dictGet (dictSet d k v) key = if k = key then some v else dictGet d key := by
  induction d with
  | nil => by_cases h : k = key <;> simp [dictSet, dictGet, h]
  | cons p rest ih =>
    obtain ⟨pk, pv⟩ := p
    by_cases h1 : pk = k
    · subst h1
      by_cases h2 : pk = key <;> simp [dictSet, dictGet, h2]
    · by_cases h2 : pk = key
      · subst h2
        have hk : ¬k = pk := fun h => h1 h.symm
        simp [dictSet, dictGet, h1, hk]
      · simp [dictSet, dictGet, h1, h2, ih]

/-- A key absent from a dict looks up to `none`. -/
theorem dictGet_none_of_not_mem (d : HDict) (key : String)
    (h : key ∉ d.map Prod.fst) : dictGet d key = none := by
  induction d with
  | nil => rfl
  | cons p rest ih =>
    simp only [List.map_cons, List.mem_cons, not_or] at h
    have : ¬p.1 = key := fun he => h.1 he.symm
    simpa [dictGet, this] using ih h.2

/-- `dict.update` leaves keys that the overrides do not mention unchanged. -/
theorem dictGet_dictUpdate_none (ov : HDict) :
    ∀ (d : HDict) (key : String), dictGet ov key = none →
      dictGet (dictUpdate d ov) key = dictGet d key := by
  induction ov with
  | nil => intro d key _; rfl
  | cons p rest ih =>
    intro d key h
    obtain ⟨k, w⟩ := p
    by_cases hk : k = key
    · simp [dictGet, hk] at h
    · rw [dictGet] at h
      rw [if_neg hk] at h
      rw [dictUpdate, ih (dictSet d k w) key h, dictGet_dictSet, if_neg hk]

/-- `dict.update` installs every override key's value verbatim (override
keys distinct, as Python keyword arguments are). -/
theorem dictGet_dictUpdate_some (ov : HDict) :
    ∀ (d : HDict) (key : String) (v : ℝ), (ov.map Prod.fst).Nodup →
      dictGet ov key = some v → dictGet (dictUpdate d ov) key = some v := by
  induction ov with
  | nil => intro d key v _ h; exact absurd h (by simp [dictGet])
  | cons p rest ih =>
    intro d key v hnd h
    obtain ⟨k, w⟩ := p
    have hnd' : (rest.map Prod.fst).Nodup := (List.nodup_cons.mp (by simpa using hnd)).2
    have hkmem : k ∉ rest.map Prod.fst := (List.nodup_cons.mp (by simpa using hnd)).1
    by_cases hk : k = key
    · subst hk
      rw [dictGet, if_pos rfl] at h
      have hrest : dictGet rest k = none := dictGet_none_of_not_mem rest k hkmem
      rw [dictUpdate, dictGet_dictUpdate_none rest (dictSet d k w) k hrest,
        dictGet_dictSet, if_pos rfl, h]
    · rw [dictGet, if_neg hk] at h
      rw [dictUpdate]
      exact ih (dictSet d k w) key v hnd' h

/-- A successful `collect` resets the collector to the empty state. -/
theorem scollect_ok_reset (s : StatisticsCollector) (summ : Summary) (s' : StatisticsCollector)
    (h : SCcollect s = .ok (summ, s')) : s' = SCinit := by
  unfold SCcollect at h
  repeat' split at h
  all_goals simp_all [SCinit]

/-- `collect` right after a `report` always succeeds: every list is nonempty. -/
theorem scollect_report_ok (s : StatisticsCollector) (p v r c : ℚ) :
    ∃ y, SCcollect (SCreport s p v r c) = .ok y := by
  simp [SCcollect, SCreport, pyAvg]

/-- `save_weights` always leaves the checkpoint at the save location. -/
theorem save_weights_mem (files : List String) (f : String) : f ∈ save_weights files f := by
  unfold save_weights
  split
  · assumption
  · simp

/-- The training loop never fails and completes `min n src.length` steps:
one per remaining iteration until the source exhausts. -/
theorem trainLoopGo_ok (logdir : Bool) (src : List StepValues) :
    ∀ (i n : ℕ) (stats : StatisticsCollector) (logs : List Summary),
    ∃ stats' logs',
      trainLoopGo logdir i n stats logs src = some (min n src.length, stats', logs') := by
  induction src with
  | nil =>
    intro i n stats logs
    cases n with
    | zero => exact ⟨stats, logs, rfl⟩
    | succ m => exact ⟨stats, logs, by simp [trainLoopGo]⟩
  | cons tv rest ih =>
    intro i n stats logs
    cases n with
    | zero => exact ⟨stats, logs, by simp [trainLoopGo]⟩
    | succ m =>
      cases hl : logdir with
      | false =>
        subst hl
        obtain ⟨st', lg', hrec⟩ := ih (i + 1) m stats logs
        refine ⟨st', lg', ?_⟩
        simp [trainLoopGo, hrec, Nat.succ_min_succ]
      | true =>
        subst hl
        by_cases hi : i % 100 = 0
        · obtain ⟨⟨summ, stats3⟩, hcol⟩ :=
            scollect_report_ok stats tv.policy_cost tv.value_cost tv.l2_cost tv.combined_cost
          obtain ⟨st', lg', hrec⟩ := ih (i + 1) m stats3 (logs ++ [summ])
          refine ⟨st', lg', ?_⟩
          simp [trainLoopGo, hi, hcol, hrec, Nat.succ_min_succ]
        · obtain ⟨st', lg', hrec⟩ :=
            ih (i + 1) m (SCreport stats tv.policy_cost tv.value_cost tv.l2_cost tv.combined_cost)
              logs
          refine ⟨st', lg', ?_⟩
          simp [trainLoopGo, hi, hrec, Nat.succ_min_succ]

/-! ## Claim theorems -/

/-- C1: the claim says `l2_cost = l2_strength · Σ‖w‖²`, so changing
`l2_strength` should change `l2_cost` proportionally.  The source instead
multiplies by the literal `1e-4` (and halves each squared norm via
`tf.nn.l2_loss`): `l2_cost` is independent of `l2_strength`, and on the
weight tensor `[1, 2]` the code yields `1/4000` for both
`l2_strength = 2e-4` and `4e-4`, while the spec formula yields `1/1000`
and `2/1000` respectively. -/
theorem l2_cost_uses_literal_not_l2_strength :
    (∀ (s₁ s₂ : ℚ) (vars : List TrainVar),
      train_ops_l2_cost s₁ vars = train_ops_l2_cost s₂ vars) ∧
    train_ops_l2_cost (2 / 10000) [⟨"conv2d/kernel", [1, 2]⟩] = 1 / 4000 ∧
    train_ops_l2_cost (4 / 10000) [⟨"conv2d/kernel", [1, 2]⟩] = 1 / 4000 ∧
    spec_l2_cost (2 / 10000) [⟨"conv2d/kernel", [1, 2]⟩] = 1 / 1000 ∧
    spec_l2_cost (4 / 10000) [⟨"conv2d/kernel", [1, 2]⟩] = 2 / 1000 := by
  have hb : strContains "conv2d/kernel" "bias" = false := by decide
  refine ⟨fun s₁ s₂ vars => rfl, ?_, ?_, ?_, ?_⟩ <;>
    norm_num [train_ops_l2_cost, spec_l2_cost, l2_loss, hb]

/-- C3: `initialize_weights(init_from)` precedence: the trainer's own save
location (checkpoint detected via the `.meta` companion) wins; otherwise
`init_from` when given; otherwise random initialization. -/
theorem init_weights_precedence (save_file : Option String) (pathExists : String → Bool)
    (init_from : Option String) :
    (∀ s, save_file = some s → pathExists (s ++ ".meta") = true →
      initialize_weights save_file pathExists init_from = InitAction.restoreFrom s) ∧
    ((∀ s, save_file = some s → pathExists (s ++ ".meta") = false) →
      ∀ f, init_from = some f →
      initialize_weights save_file pathExists init_from = InitAction.restoreFrom f) ∧
    ((∀ s, save_file = some s → pathExists (s ++ ".meta") = false) →
      init_from = none →
      initialize_weights save_file pathExists init_from = InitAction.randomInit) := by
  refine ⟨?_, ?_, ?_⟩
  · intro s hs hmeta
    subst hs
    simp [initialize_weights, hmeta]
  · intro hno f hf
    subst hf
    cases save_file with
    | none => rfl
    | some s => simp [initialize_weights, hno s rfl]
  · intro hno hnone
    subst hnone
    cases save_file with
    | none => rfl
    | some s => simp [initialize_weights, hno s rfl]

/-- C3 witness: when both the trainer's save location and `init_from`
exist, the trainer's own save location wins. -/
theorem init_weights_precedence_witness :
    initialize_weights (some "ckpt") (fun _ => true) (some "older") =
      InitAction.restoreFrom "ckpt" :=
  (init_weights_precedence (some "ckpt") (fun _ => true) (some "older")).1 "ckpt" rfl rfl

/-- C4: with every accumulator nonempty, `collect()` returns the summary of
the four arithmetic means and resets the collector to the empty state. -/
theorem collect_means_and_reset (s : StatisticsCollector)
    (hp : s.policy_costs ≠ []) (hv : s.value_costs ≠ [])
    (hr : s.regularization_costs ≠ []) (hc : s.combined_costs ≠ []) :
    SCcollect s = .ok
      (⟨s.policy_costs.sum / s.policy_costs.length,
        s.value_costs.sum / s.value_costs.length,
        s.regularization_costs.sum / s.regularization_costs.length,
        s.combined_costs.sum / s.combined_costs.length⟩, SCinit) := by
  simp [SCcollect, pyAvg, List.length_eq_zero, hp, hv, hr, hc, SCinit]

/-- C4 witness: a single `report(0.5, 0.3, 0.01, 0.81)` followed by
`collect()` returns exactly the reported values as means and leaves the
collector empty (`SCinit`). -/
theorem collect_means_and_reset_witness :
    SCcollect (SCreport SCinit (1/2) (3/10) (1/100) (81/100)) = .ok
      (⟨(SCreport SCinit (1/2) (3/10) (1/100) (81/100)).policy_costs.sum /
          (SCreport SCinit (1/2) (3/10) (1/100) (81/100)).policy_costs.length,
        (SCreport SCinit (1/2) (3/10) (1/100) (81/100)).value_costs.sum /
          (SCreport SCinit (1/2) (3/10) (1/100) (81/100)).value_costs.length,
        (SCreport SCinit (1/2) (3/10) (1/100) (81/100)).regularization_costs.sum /
          (SCreport SCinit (1/2) (3/10) (1/100) (81/100)).regularization_costs.length,
        (SCreport SCinit (1/2) (3/10) (1/100) (81/100)).combined_costs.sum /
          (SCreport SCinit (1/2) (3/10) (1/100) (81/100)).combined_costs.length⟩, SCinit) ∧
    (SCreport SCinit (1/2) (3/10) (1/100) (81/100)).policy_costs.sum /
      (SCreport SCinit (1/2) (3/10) (1/100) (81/100)).policy_costs.length = 1/2 :=
  ⟨collect_means_and_reset _ (by simp [SCreport, SCinit]) (by simp [SCreport, SCinit])
      (by simp [SCreport, SCinit]) (by simp [SCreport, SCinit]),
    by norm_num [SCreport, SCinit]⟩

/-- C5: under the equal-length invariant of the four accumulators,
`collect()` fails — and fails with the division-by-zero arithmetic fault,
the only error the code can produce, not a descriptive one — exactly when
no `report()` has occurred since the last `collect()` (lists empty). -/
theorem collect_division_by_zero_iff_empty (s : StatisticsCollector)
    (h1 : s.value_costs.length = s.policy_costs.length)
    (h2 : s.regularization_costs.length = s.policy_costs.length)
    (h3 : s.combined_costs.length = s.policy_costs.length) :
    SCcollect s = .error CollectError.divisionByZero ↔ s.policy_costs = [] := by
  constructor
  · intro h
    by_contra hne
    have hlen : s.policy_costs.length ≠ 0 := by
      simpa [List.length_eq_zero] using hne
    rw [SCcollect] at h
    simp [pyAvg, hlen, h1, h2, h3] at h
  · intro h
    have : s.policy_costs.length = 0 := by simp [h]
    simp [SCcollect, pyAvg, this]

/-- C5 witness: on a fresh (empty) collector, `collect()` is exactly the
division-by-zero fault. -/
theorem collect_division_by_zero_iff_empty_witness :
    SCcollect SCinit = .error CollectError.divisionByZero ↔ SCinit.policy_costs = [] :=
  collect_division_by_zero_iff_empty SCinit rfl rfl rfl

/-- C9: every state reachable from a fresh `StatisticsCollector` through
`report`/successful `collect` keeps the four accumulator lists at equal
length (construction starts all empty, `report` appends one to each,
`collect` resets all four). -/
theorem stats_lists_equal_length (s : StatisticsCollector) (h : SCreachable s) :
    s.value_costs.length = s.policy_costs.length ∧
    s.regularization_costs.length = s.policy_costs.length ∧
    s.combined_costs.length = s.policy_costs.length := by
  induction h with
  | init => simp [SCinit]
  | step _ hstep ih =>
    cases hstep with
    | report p v r c => simp [SCreport, ih.1, ih.2.1, ih.2.2]
    | collect summ s2 hcoll =>
      have hreset := scollect_ok_reset _ summ _ hcoll
      subst hreset
      simp [SCinit]

/-- C2: `train` always returns successfully with the checkpoint written to
the save location, on the early-exhaustion path as on the normal one; and
when the source exhausts after fewer batches than `num_steps`, the loop
stops at the step where exhaustion is signalled, having completed exactly
`source.length` steps. -/
theorem train_always_checkpoints (files : List String) (save_file : String)
    (source : List StepValues) (num_steps : Option ℕ) (logdir : Bool) :
    ∃ out : TrainOutcome,
      train files save_file source num_steps logdir = some out ∧
      save_file ∈ out.files ∧
      ∀ n, num_steps = some n → source.length < n → out.stepsRun = source.length := by
  obtain ⟨st', lg', hrun⟩ :=
    trainLoopGo_ok logdir source 0 (num_steps.getD (EXAMPLES_PER_GENERATION / TRAIN_BATCH_SIZE))
      SCinit []
  refine ⟨⟨min (num_steps.getD (EXAMPLES_PER_GENERATION / TRAIN_BATCH_SIZE)) source.length,
      lg', save_weights files save_file⟩, ?_, ?_, ?_⟩
  · simp [train, hrun]
  · exact save_weights_mem files save_file
  · intro n hn h
    subst hn
    simp [min_eq_right (le_of_lt h)]

/-- C2 witness: `train` with `num_steps = 10` against a source that
exhausts after 3 batches stops after 3 steps and still writes the
checkpoint. -/
theorem train_always_checkpoints_witness :
    ∃ out : TrainOutcome,
      train [] "ckpt" [⟨1, 1, 1, 1⟩, ⟨2, 2, 2, 2⟩, ⟨3, 3, 3, 3⟩] (some 10) true = some out ∧
      "ckpt" ∈ out.files ∧ out.stepsRun = 3 := by
  obtain ⟨out, h1, h2, h3⟩ :=
    train_always_checkpoints [] "ckpt" [⟨1, 1, 1, 1⟩, ⟨2, 2, 2, 2⟩, ⟨3, 3, 3, 3⟩] (some 10) true
  exact ⟨out, h1, h2, h3 10 rfl (by norm_num)⟩

/-- C7: `_round_power_of_two(n)` equals `2` raised to the integer nearest
to `log2 n`: it is a power of two and its base-2 logarithm is within `1/2`
of `log2 n`. -/
theorem round_power_of_two_spec (n : ℝ) (h : 0 < n) :
    (∃ k : ℤ, round_power_of_two n = 2 ^ k) ∧
    |Real.logb 2 (round_power_of_two n) - Real.logb 2 n| ≤ 1 / 2 := by
  constructor
  · exact ⟨round (Real.logb 2 n), rfl⟩
  · have hb : Real.logb 2 (round_power_of_two n) = (round (Real.logb 2 n) : ℝ) := by
      rw [round_power_of_two, ← Real.rpow_intCast,
        Real.logb_rpow (by norm_num) (by norm_num)]
    rw [hb]
    have habs := abs_sub_round (Real.logb 2 n)
    rwa [abs_sub_comm] at habs

/-- C7 witness: at `n = 1`. -/
theorem round_power_of_two_spec_witness :
    (0 : ℝ) < 1 ∧ ((∃ k : ℤ, round_power_of_two 1 = 2 ^ k) ∧
      |Real.logb 2 (round_power_of_two 1) - Real.logb 2 1| ≤ 1 / 2) :=
  ⟨by norm_num, round_power_of_two_spec 1 (by norm_num)⟩

/-- C9 witness: the state after one `report` on a fresh collector is
reachable and has all four lists of equal length. -/
theorem stats_lists_equal_length_witness :
    (SCreport SCinit 1 2 3 4).value_costs.length =
      (SCreport SCinit 1 2 3 4).policy_costs.length ∧
    (SCreport SCinit 1 2 3 4).regularization_costs.length =
      (SCreport SCinit 1 2 3 4).policy_costs.length ∧
    (SCreport SCinit 1 2 3 4).combined_costs.length =
      (SCreport SCinit 1 2 3 4).policy_costs.length :=
  stats_lists_equal_length _ (SCreachable.step SCreachable.init (SCstep.report SCinit 1 2 3 4))

/-- C6: with `use_random_symmetry = True`, `run_many` feeds the forward
pass the per-example symmetrized features (example `j` transformed by the
independently drawn symmetry `draw j`), returns the value outputs of that
forward pass with no inverse transformation, and returns as `j`-th policy
the `j`-th forward policy with the inverse of the `j`-th drawn symmetry
applied. -/
theorem run_many_symmetry_policy_only {Pos F P V : Type} (m : InferenceModel Pos F P V)
    (positions : List Pos) :
    (∀ j : ℕ, (randomize_symmetries_feat m (positions.map m.extract_features)).2[j]? =
        positions[j]?.map (fun pos => m.applySymFeat (m.draw j) (m.extract_features pos))) ∧
    (run_many m positions true).2 =
      (m.forward (randomize_symmetries_feat m (positions.map m.extract_features)).2).2 ∧
    (∀ j : ℕ, j < positions.length →
      (run_many m positions true).1[j]? =
        ((m.forward (randomize_symmetries_feat m (positions.map m.extract_features)).2).1[j]?).map
          (fun p => m.applySymPi (m.invSym (m.draw j)) p)) := by
  refine ⟨?_, rfl, ?_⟩
  · intro j
    by_cases hj : j < positions.length
    · simp [randomize_symmetries_feat, List.getElem?_zipWith', List.getElem?_range, hj,
        List.getElem?_map]
    · simp [randomize_symmetries_feat, List.getElem?_zipWith', List.getElem?_range, hj,
        List.getElem?_map, List.getElem?_eq_none (le_of_not_lt hj)]
  · intro j hj
    simp [run_many, invert_symmetries_pi, randomize_symmetries_feat, List.getElem?_zipWith',
      List.getElem?_range, hj, List.getElem?_map]

/-- C6 witness: on the single-position batch `[7]` of the demo wiring. -/
theorem run_many_symmetry_policy_only_witness :
    (0 : ℕ) < ([7] : List ℕ).length ∧
    (run_many demoModel [7] true).1[(0 : ℕ)]? =
      ((demoModel.forward
          (randomize_symmetries_feat demoModel
            ([7].map demoModel.extract_features)).2).1[(0 : ℕ)]?).map
        (fun p => demoModel.applySymPi (demoModel.invSym (demoModel.draw 0)) p) :=
  ⟨by decide, (run_many_symmetry_policy_only demoModel [7]).2.2 0 (by decide)⟩

/-- C8: the resolved hyperparameters take every key present in the
overrides verbatim from the overrides (no validation), every other key
from the board-size-derived defaults, which are
`k = nearest_power_of_two(N²/3)`, `fc_width = 2k`,
`num_shared_layers = N`, `l2_strength = 2e-4`, `momentum = 0.9`. -/
theorem get_default_hyperparams_spec (N : ℕ) (overrides : HDict)
    (hnd : (overrides.map Prod.fst).Nodup) :
    (∀ key v, dictGet overrides key = some v →
      dictGet (get_default_hyperparams N overrides) key = some v) ∧
    (∀ key, dictGet overrides key = none →
      dictGet (get_default_hyperparams N overrides) key = dictGet (default_hparams N) key) ∧
    dictGet (default_hparams N) "k" = some (round_power_of_two ((N : ℝ) ^ 2 / 3)) ∧
    dictGet (default_hparams N) "fc_width" = some (2 * round_power_of_two ((N : ℝ) ^ 2 / 3)) ∧
    dictGet (default_hparams N) "num_shared_layers" = some (N : ℝ) ∧
    dictGet (default_hparams N) "l2_strength" = some (2 / 10000) ∧
    dictGet (default_hparams N) "momentum" = some (9 / 10) := by
  refine ⟨?_, ?_, ?_, ?_, ?_, ?_, ?_⟩
  · intro key v h
    exact dictGet_dictUpdate_some overrides (default_hparams N) key v hnd h
  · intro key h
    exact dictGet_dictUpdate_none overrides (default_hparams N) key h
  all_goals simp [default_hparams, dictGet]

/-- C8 witness: overriding `l2_strength` with `0.1` on a 9×9 board is
taken verbatim. -/
theorem get_default_hyperparams_spec_witness :
    dictGet (get_default_hyperparams 9 [("l2_strength", (1 : ℝ) / 10)]) "l2_strength" =
      some ((1 : ℝ) / 10) :=
  (get_default_hyperparams_spec 9 [("l2_strength", (1 : ℝ) / 10)]
    (by simp)).1 "l2_strength" ((1 : ℝ) / 10) (by simp [dictGet])

/-- C10: `bootstrap` works entirely inside a freshly allocated session
over a fresh graph: the trainer's own session is left untouched (same
graph state, variables still uninitialized if they were), and the
checkpoint lands at the save location. -/
theorem bootstrap_frame (t : Trainer) (w : TFWorld) (h : t.sess < w.sessions.length) :
    (bootstrap t w).sessions[t.sess]? = w.sessions[t.sess]? ∧
    (bootstrap t w).files = save_weights w.files t.save_file ∧
    t.save_file ∈ (bootstrap t w).files ∧
    (∀ g : Bool, w.sessions[t.sess]? = some ⟨g, false⟩ →
      (bootstrap t w).sessions[t.sess]? = some ⟨g, false⟩) := by
  have hne : w.sessions.length ≠ t.sess := ne_of_gt h
  have hsess : (bootstrap t w).sessions[t.sess]? = w.sessions[t.sess]? := by
    simp [bootstrap, newSession, buildTrainGraph, runGlobalVarsInit, updateSession, saverSave,
      List.getElem?_set_ne hne, List.getElem?_append, h]
  refine ⟨hsess, rfl, ?_, ?_⟩
  · exact save_weights_mem w.files t.save_file
  · intro g hg
    rw [hsess, hg]

/-- C10 witness: a world holding just the trainer's own uninitialized
session. -/
theorem bootstrap_frame_witness :
    (bootstrap ⟨"boot", 0⟩ ⟨[⟨false, false⟩], []⟩).sessions[(0 : ℕ)]? =
      (⟨[⟨false, false⟩], []⟩ : TFWorld).sessions[(0 : ℕ)]? ∧
    (bootstrap ⟨"boot", 0⟩ ⟨[⟨false, false⟩], []⟩).files =
      save_weights ([] : List String) "boot" ∧
    "boot" ∈ (bootstrap ⟨"boot", 0⟩ ⟨[⟨false, false⟩], []⟩).files ∧
    (∀ g : Bool, (⟨[⟨false, false⟩], []⟩ : TFWorld).sessions[(0 : ℕ)]? = some ⟨g, false⟩ →
      (bootstrap ⟨"boot", 0⟩ ⟨[⟨false, false⟩], []⟩).sessions[(0 : ℕ)]? = some ⟨g, false⟩) :=
  bootstrap_frame ⟨"boot", 0⟩ ⟨[⟨false, false⟩], []⟩ (by decide)

end DualNet
